import Mathlib

/-!
Verification of the SafeShare-LAN network engine (src/networkManager.js and
src/check-env.js) against its specification.

The JavaScript source is shallowly embedded: byte streams are lists of
naturals (a byte value, newline = 10), JS 32-bit integer operations are
naturals reduced modulo 2 ^ 32 operating on the unsigned bit pattern, the
per-connection receive handler is a step function folded over stream inputs,
and the event-loop handlers of check-env.js are explicit state-passing
functions.  JSON.parse is a JS builtin and is abstracted as a parameter
`parse : List Nat → Option Meta`; timestamps are naturals (Date.now()), and
the floating-point speed value of progress events is not carried by the
model (no claim mentions it).
-/

namespace SafeShare

/-! ### Byte-buffer helpers -/

/-- Buffer.indexOf for a single byte, as used by
`metaBuffer.indexOf('\n')` in handleIncomingTransfer: index of the first
occurrence, or `none` where JS returns -1. -/
def findNl : List Nat → Option Nat
  | [] => none
  | b :: bs => if b = 10 then some 0 else (findNl bs).map (fun i => i + 1)

/-- startsWith on character lists (helper for the JS String.includes model). -/
def startsWithList : List Char → List Char → Bool
  | [], _ => true
  | _ :: _, [] => false
  | p :: ps, c :: cs => p = c && startsWithList ps cs

/-- substring occurrence on character lists. -/
def containsSubList : List Char → List Char → Bool
  | [], pat => pat.isEmpty
  | s@(_ :: rest), pat => startsWithList pat s || containsSubList rest pat

/-- JS String.prototype.includes, used by the batch loop in check-env.js
(`err.message.includes('ECONNREFUSED')`). -/
def jsIncludes (s pat : String) : Bool :=
  containsSubList s.toList pat.toList

/-! ### JS 32-bit integer operations (networkManager.js lines 25-37)

JS bitwise operators coerce to 32-bit integers; for non-negative inputs the
resulting bit pattern is the value modulo 2 ^ 32, and `>>> 0` reads that
pattern back as an unsigned value.  We work with the unsigned pattern
throughout. -/

/-- ToUint32: the 32-bit pattern of a non-negative number. -/
def toUint32 (x : Nat) : Nat := x % 4294967296

/-- JS `x << k` for non-negative `x` (pattern view). -/
def jsShiftLeft32 (x k : Nat) : Nat := toUint32 (toUint32 x * 2 ^ k)

/-- JS `x >>> k` for non-negative `x`. -/
def jsShiftRightU32 (x k : Nat) : Nat := toUint32 x / 2 ^ k

/-- JS `x | y` for non-negative operands (pattern view). -/
def jsOr32 (x y : Nat) : Nat := toUint32 x ||| toUint32 y

/-- JS `x & y` for non-negative operands (pattern view). -/
def jsAnd32 (x y : Nat) : Nat := toUint32 x &&& toUint32 y

/-- ipToLong (networkManager.js lines 25-28):
`((parts[0] << 24) | (parts[1] << 16) | (parts[2] << 8) | parts[3]) >>> 0`.
A dotted-quad string is represented by its four parsed octets. -/
def ipToLong (a b c d : Nat) : Nat :=
  toUint32 (jsOr32 (jsOr32 (jsOr32 (jsShiftLeft32 a 24) (jsShiftLeft32 b 16)) (jsShiftLeft32 c 8)) d)

/-- longToIp (networkManager.js lines 30-37): the four octets
`(long >>> 24) & 0xff`, `(long >>> 16) & 0xff`, `(long >>> 8) & 0xff`,
`long & 0xff` that are joined with dots. -/
def longToIp (n : Nat) : Nat × Nat × Nat × Nat :=
  (jsAnd32 (jsShiftRightU32 n 24) 255,
   jsAnd32 (jsShiftRightU32 n 16) 255,
   jsAnd32 (jsShiftRightU32 n 8) 255,
   jsAnd32 n 255)

/-! ### Progress throttling (createProgressTransform and the onProgress
closures, networkManager.js lines 12-23, 113-134 and 439-451)

Both the sender and the receiver keep `lastUpdate`, `lastBytes` and the
transform's running `transferred` count, and emit a progress event only when
`now - lastUpdate >= 500`, updating both variables on emission. -/

structure Throttle where
  lastUpdate : Nat
  lastBytes : Nat
  transferred : Nat
deriving DecidableEq, Repr

/-- One chunk through the progress transform: add the chunk length, and emit
`(now, transferred)` when at least 500 ms have elapsed since `lastUpdate`. -/
def throttleStep (th : Throttle) (now len : Nat) : Throttle × Option (Nat × Nat) :=
  let transferred := th.transferred + len
  if 500 ≤ now - th.lastUpdate then
    ({ lastUpdate := now, lastBytes := transferred, transferred := transferred },
     some (now, transferred))
  else
    ({ th with transferred := transferred }, none)

/-- The whole chunk sequence through the transform, collecting emissions. -/
def throttleRun : Throttle → List (Nat × Nat) → Throttle × List (Nat × Nat)
  | th, [] => (th, [])
  | th, (t, len) :: rest =>
    let s := throttleStep th t len
    let r := throttleRun s.1 rest
    (r.1, s.2.toList ++ r.2)

/-- `Math.min(100, Math.floor((transferred / fileSize) * 100))` on naturals. -/
def progressPct (transferred fileSize : Nat) : Nat :=
  min 100 (transferred * 100 / fileSize)

/-! ### Transfer registry (the `activeTransfers` Map, keys only) -/

/-- Map.prototype.set: the key set after inserting `id`. -/
def regSet (r : List String) (id : String) : List String :=
  if id ∈ r then r else r ++ [id]

/-- Map.prototype.delete: the key set after deleting `id`. -/
def regDelete (r : List String) (id : String) : List String :=
  r.filter (fun x => x ≠ id)

/-! ### Receiver model: handleIncomingTransfer (networkManager.js 391-506)

One accepted connection.  The socket delivers a sequence of inputs: data
chunks with a timestamp, a clean end-of-stream, a socket error, or a
write-stream error surfaced through the pipeline callback.  The model keeps
the per-connection state: the metadata buffer, the bytes handed to the
file-writing pipeline, the (possibly replaced) transfer id, the registry key
set, the throttle variables and the emitted events.

Registration order as in the source: the connection is registered in
`activeTransfers` under a provisional id on accept; if the parsed metadata
carries a `transferId`, the local variable is reassigned and later
deletions use the reassigned id. -/

/-- The parsed metadata line (`JSON.parse` result shape used by the code). -/
structure Meta where
  transferId : Option String
  name : String
  size : Nat
deriving DecidableEq, Repr

/-- Events sent to the renderer by the receiver
(`transfer-progress`, `transfer-complete`, `transfer-error`). -/
inductive REv
  | progress (tid status : String) (prog bytes time : Nat)
  | complete (tid : String)
  | error (tid msg : String)
deriving DecidableEq, Repr

/-- Stream inputs for one incoming connection. -/
inductive RIn
  | data (t : Nat) (chunk : List Nat)
  | ended (t : Nat)
  | errored (t : Nat) (msg : String)
  | wsErrored (t : Nat) (msg : String)
deriving DecidableEq, Repr

/-- Per-connection receiver state. -/
structure RSt where
  receiving : Bool
  destroyed : Bool
  finished : Bool
  metaBuffer : List Nat
  fileBytes : List Nat
  fileSize : Nat
  tid : String
  reg : List String
  th : Throttle
  events : List REv
  parses : Nat
deriving DecidableEq, Repr

/-- Throttled emission to a `receiving` progress event. -/
def emEvents (tid : String) (size : Nat) : Option (Nat × Nat) → List REv
  | none => []
  | some (t, tr) => [REv.progress tid "receiving" (progressPct tr size) tr t]

/-- State on accept (networkManager.js 391-414): provisional id, registry
registration, throttle variables initialised to the accept time, and the
immediate `connecting` progress event. -/
def recvInit (reg0 : List String) (provId : String) (t0 : Nat) : RSt :=
  { receiving := false
    destroyed := false
    finished := false
    metaBuffer := []
    fileBytes := []
    fileSize := 0
    tid := provId
    reg := regSet reg0 provId
    th := { lastUpdate := t0, lastBytes := 0, transferred := 0 }
    events := [REv.progress provId "connecting" 0 0 t0]
    parses := 0 }

/-- One stream input through the handler.  The metadata path mirrors
networkManager.js 416-497: accumulate until the first newline (destroying
the socket if 65536 bytes pile up without one), parse the JSON line, adopt
`meta.transferId`, emit the immediate progress-0 event, unshift the bytes
after the newline into the pipeline, and from then on append every chunk to
the file through the progress transform.  A clean end completes the pipeline
(no size check appears in the source) and deletes the registry entry under
the current id; a socket error is handled by the socket error listener
(registered first, so the pipeline callback then sees `transferFinished` and
emits nothing); a write-stream error reaches the pipeline callback and emits
`transfer-error`. -/
def rstep (parse : List Nat → Option Meta) (st : RSt) : RIn → RSt
  | RIn.data t chunk =>
    if st.destroyed then st
    else if st.finished then st
    else if st.receiving then
      let s := throttleStep st.th t chunk.length
      { st with
        fileBytes := st.fileBytes ++ chunk
        th := s.1
        events := st.events ++ emEvents st.tid st.fileSize s.2 }
    else
      let buf := st.metaBuffer ++ chunk
      match findNl buf with
      | none =>
        if 65536 < buf.length then { st with metaBuffer := buf, destroyed := true }
        else { st with metaBuffer := buf }
      | some i =>
        match parse (buf.take i) with
        | none => { st with metaBuffer := buf, destroyed := true }
        | some m =>
          let tid2 := m.transferId.getD st.tid
          let rem := buf.drop (i + 1)
          if rem.isEmpty then
            { st with
              receiving := true
              metaBuffer := []
              fileBytes := rem
              fileSize := m.size
              tid := tid2
              parses := st.parses + 1
              events := st.events ++ [REv.progress tid2 "receiving" 0 0 t] }
          else
            let s := throttleStep st.th t rem.length
            { st with
              receiving := true
              metaBuffer := []
              fileBytes := rem
              fileSize := m.size
              tid := tid2
              parses := st.parses + 1
              th := s.1
              events := st.events ++ [REv.progress tid2 "receiving" 0 0 t]
                ++ emEvents tid2 m.size s.2 }
  | RIn.ended _ =>
    if st.destroyed then st
    else if st.finished then st
    else if st.receiving then
      { st with
        finished := true
        reg := regDelete st.reg st.tid
        events := st.events ++ [REv.complete st.tid] }
    else st
  | RIn.errored _ _ =>
    if st.destroyed then st
    else if st.finished then st
    else { st with finished := true, reg := regDelete st.reg st.tid }
  | RIn.wsErrored _ msg =>
    if st.destroyed then st
    else if st.finished then st
    else if st.receiving then
      { st with
        finished := true
        reg := regDelete st.reg st.tid
        events := st.events ++ [REv.error st.tid msg] }
    else st

/-- The whole input sequence through the handler. -/
def runRecv (parse : List Nat → Option Meta) : RSt → List RIn → RSt
  | st, [] => st
  | st, i :: is => runRecv parse (rstep parse st i) is

/-- Data-only input sequences (timestamped chunks). -/
def dataIns (chunks : List (Nat × List Nat)) : List RIn :=
  chunks.map (fun p => RIn.data p.1 p.2)

/-- Concatenated payload of a chunk sequence. -/
def chunksJoin (chunks : List (Nat × List Nat)) : List Nat :=
  (chunks.map Prod.snd).flatten

/-! ### Sender model: sendFile (networkManager.js 75-174)

`sendFile(transferId, peerIP, filePath)` synchronously rejects when the file
does not exist (before touching the registry), otherwise registers the
transfer, connects, writes the metadata line, waits for the flush, and pumps
the file through the progress transform into the socket.  The pipeline
callback deletes the registry entry and either emits `transfer-complete` and
resolves, or rejects with the pipeline error.  The model takes the file
chunk timings and an optional pipeline error as inputs. -/

/-- A settled sendFile promise. -/
inductive Outcome
  | ok
  | err (msg : String)
deriving DecidableEq, Repr

/-- Events sent to the renderer by the sender. -/
inductive SEv
  | progress (tid : String) (prog sent time : Nat)
  | complete (tid : String)
deriving DecidableEq, Repr

/-- Result of one sendFile call. -/
structure SendRes where
  result : Outcome
  reg : List String
  events : List SEv
deriving DecidableEq, Repr

/-- One sendFile call.  `chunks` are the (timestamp, length) pairs of the
file chunks through the progress transform; `pipeErr` is the pipeline
callback error, if any. -/
def sendFileRun (reg : List String) (tid : String) (fileExists : Bool)
    (fileSize t0 : Nat) (chunks : List (Nat × Nat)) (pipeErr : Option String) :
    SendRes :=
  if fileExists = false then
    { result := Outcome.err "File not found", reg := reg, events := [] }
  else
    let reg1 := regSet reg tid
    let ems := (throttleRun { lastUpdate := t0, lastBytes := 0, transferred := 0 } chunks).2
    let pevs := ems.map (fun e => SEv.progress tid (progressPct e.2 fileSize) e.2 e.1)
    match pipeErr with
    | some msg => { result := Outcome.err msg, reg := regDelete reg1 tid, events := pevs }
    | none =>
      { result := Outcome.ok, reg := regDelete reg1 tid,
        events := pevs ++ [SEv.complete tid] }

/-! ### IPC handlers (check-env.js)

Process-wide state visible to the handlers: the `batchTransferActive` flag
and the registry key set. -/

/-- Process-wide handler state. -/
structure Host where
  batchTransferActive : Bool
  reg : List String
deriving DecidableEq, Repr

/-- Handler return value `{ success, error }`. -/
structure IpcRes where
  success : Bool
  error : Option String
deriving DecidableEq, Repr

/-- The `cancelTransfer` method looked up on the NetworkManager instance.
networkManager.js defines setDownloadsDir, getDownloadsDir, sendFile,
getLocalIPs, startDiscovery, scanSubnet, checkPeer, startBroadcasting,
handleDiscoveryMessage, startTcpServer, pauseTransfer, resumeTransfer,
handleIncomingTransfer and stop — but no cancelTransfer, so the dynamic
lookup yields nothing. -/
def cancelTransferMethod : Option (List String → String → Bool × List String) :=
  none

/-- The `cancel-transfer` IPC handler (check-env.js 360-371): it calls
`networkManager.cancelTransfer(transferId)`.  Because the method does not
exist, the call raises a TypeError which the surrounding try/catch turns
into `{ success: false, error: e.message }`; the registry is untouched. -/
def cancelTransferHandler (reg : List String) (id : String) :
    IpcRes × List String :=
  match cancelTransferMethod with
  | some f =>
    let r := f reg id
    ({ success := r.1, error := none }, r.2)
  | none =>
    ({ success := false,
       error := some "networkManager.cancelTransfer is not a function" }, reg)

/-- The synchronous guard of the `transfer-files` handler
(check-env.js 318-327): fail when a batch is active, fail when the file list
is empty, otherwise set `batchTransferActive` before the first await. -/
def tfStart (h : Host) (filesEmpty : Bool) : Except IpcRes Host :=
  if h.batchTransferActive then
    Except.error
      { success := false,
        error := some "A transfer is already in progress. Please wait." }
  else if filesEmpty then
    Except.error { success := false, error := some "No files provided" }
  else
    Except.ok { h with batchTransferActive := true }

/-- The per-file loop of the `transfer-files` handler (check-env.js
332-348).  Each file is described by whether it exists on disk and the
pipeline error of its send, if any.  A send error aborts the batch only
when its message contains ECONNREFUSED or ETIMEDOUT; otherwise the loop
continues with the next file.  Returns the loop outcome, the registry after
the loop, and the per-file send outcomes. -/
def runBatchLoop (reg : List String) (batchId : String) :
    List (Bool × Option String) → Outcome × List String × List Outcome
  | [] => (Outcome.ok, reg, [])
  | (ex, perr) :: rest =>
    let r := sendFileRun reg batchId ex 0 0 [] perr
    match r.result with
    | Outcome.ok =>
      let rec2 := runBatchLoop r.reg batchId rest
      (rec2.1, rec2.2.1, Outcome.ok :: rec2.2.2)
    | Outcome.err msg =>
      if jsIncludes msg "ECONNREFUSED" || jsIncludes msg "ETIMEDOUT" then
        (Outcome.err msg, r.reg, [Outcome.err msg])
      else
        let rec2 := runBatchLoop r.reg batchId rest
        (rec2.1, rec2.2.1, Outcome.err msg :: rec2.2.2)

/-- The `transfer-files` handler (check-env.js 318-357): guard, loop, and
the `finally` block that always clears `batchTransferActive`. -/
def transferFilesHandler (h : Host) (batchId : String)
    (files : List (Bool × Option String)) :
    IpcRes × Host × List Outcome :=
  match tfStart h files.isEmpty with
  | Except.error r => (r, h, [])
  | Except.ok h1 =>
    let loop := runBatchLoop h1.reg batchId files
    match loop.1 with
    | Outcome.ok =>
      ({ success := true, error := none },
       { batchTransferActive := false, reg := loop.2.1 }, loop.2.2)
    | Outcome.err msg =>
      ({ success := false, error := some msg },
       { batchTransferActive := false, reg := loop.2.1 }, loop.2.2)

/-! ### Discovery engine model (networkManager.js 39-58, 189-232, 338-365,
508-518)

Socket state is tracked as bound/unbound booleans.  The constructor binds
nothing; `startTcpServer` is idempotent; `startDiscovery` clears the peer
table, ensures the TCP server, and binds the UDP socket unless already
scanning; `stop` closes the UDP socket and also the TCP server. -/

/-- Discovery-side events sent to the renderer.  The source never sends a
`peers-cleared` event; the constructor exists to state that absence. -/
inductive DEv
  | peerDiscovered (ip : String)
  | peersCleared
  | discoveryStatus (s : String)
deriving DecidableEq, Repr

/-- Engine state. -/
structure Engine where
  udpBound : Bool
  tcpBound : Bool
  isScanning : Bool
  peers : List String
  events : List DEv
deriving DecidableEq, Repr

/-- Constructor state (networkManager.js 40-58): no sockets bound. -/
def Engine.init : Engine :=
  { udpBound := false, tcpBound := false, isScanning := false,
    peers := [], events := [] }

/-- startTcpServer (networkManager.js 358-365): `if (this.tcpServer) return`,
otherwise listen on 9001. -/
def startTcpServer (e : Engine) : Engine :=
  if e.tcpBound then e else { e with tcpBound := true }

/-- startDiscovery (networkManager.js 189-232): clear the peer table (no
event is sent), ensure the TCP server, and unless already scanning bind the
UDP socket and start broadcasting. -/
def startDiscovery (e : Engine) : Engine :=
  let e1 := startTcpServer { e with peers := [] }
  if e1.isScanning then e1
  else { e1 with isScanning := true, udpBound := true }

/-- stop (networkManager.js 508-518): clear the broadcast timer, close the
UDP socket, and close the TCP server as well.  `isScanning` is not reset. -/
def stopEngine (e : Engine) : Engine :=
  { e with udpBound := false, tcpBound := false }

/-- handleDiscoveryMessage (networkManager.js 338-356) for a well-formed
discovery frame: drop frames from local addresses; a new source address is
added to the peer table and emits `peer-discovered`; a known one only
refreshes `lastSeen`. -/
def handleDiscoveryMessage (e : Engine) (localIPs : List String) (ip : String) :
    Engine :=
  if ip ∈ localIPs then e
  else if ip ∈ e.peers then e
  else { e with peers := e.peers ++ [ip], events := e.events ++ [DEv.peerDiscovered ip] }

/-! ### Concrete parsers for closed runs

JSON.parse is abstracted as a parameter; these concrete instances accept
the single-byte header `[123]` (the byte of a left brace) and return fixed
metadata, so that closed theorems can evaluate whole runs. -/

/-- Parser returning metadata that carries a sender-supplied transferId and
declares a 3-byte file. -/
def parseWithId : List Nat → Option Meta := fun b =>
  if b = [123] then some { transferId := some "send_9", name := "f", size := 3 }
  else none

/-- Parser returning metadata without a transferId, declaring a 5-byte
file. -/
def parseSize5 : List Nat → Option Meta := fun b =>
  if b = [123] then some { transferId := none, name := "f", size := 5 }
  else none

/-! ## Theorems -/

/-! ### Claim C2: the cancelTransfer command

The claim says `cancelTransfer(id)` cancels a known transfer, destroys its
stream and empties its registry entry.  The code cannot do any of this:
NetworkManager defines no `cancelTransfer` method, so the handler call
`networkManager.cancelTransfer(transferId)` throws a TypeError which the
try/catch converts to `{ success: false }`.  The cancel closures stored in
`activeTransfers` (networkManager.js 90-98 and 399-406) are never invoked
anywhere in the source. -/

/-- Claim C2 (code bug): for every registry state and every transfer id the
`cancel-transfer` handler fails with the TypeError message and leaves the
registry exactly as it was — no stream is destroyed, no entry is removed,
and no transfer transitions to cancelled. -/
theorem c2_cancel_never_cancels (reg : List String) (id : String) :
    cancelTransferHandler reg id =
      ({ success := false,
         error := some "networkManager.cancelTransfer is not a function" }, reg) :=
  rfl

/-! ### Claim C4: TCP listener lifetime -/

/-- Claim C4 (counterexample): the claim "the TCP transfer listener is bound
for the entire lifetime of the engine ... the stop command ... while the TCP
listener remains bound" is false on the code: the freshly constructed engine
has no TCP listener, and `stop` after a discovery start leaves the TCP
listener closed (networkManager.js 514-517 closes `tcpServer`). -/
theorem c4_counterexample :
    Engine.init.tcpBound = false ∧
    (stopEngine (startDiscovery Engine.init)).tcpBound = false := by
  exact ⟨rfl, rfl⟩

/-- Claim C4 (amended): the TCP listener is bound lazily — every
startDiscovery leaves it bound (startTcpServer is idempotent) — and the stop
command releases the UDP socket and closes the TCP listener as well. -/
theorem c4_tcp_lifetime (e : Engine) :
    (startDiscovery e).tcpBound = true ∧
    (stopEngine e).tcpBound = false ∧
    (stopEngine e).udpBound = false := by
  refine ⟨?_, rfl, rfl⟩
  simp only [startDiscovery, startTcpServer]
  by_cases h1 : e.tcpBound
  · simp [h1]
    by_cases h2 : e.isScanning <;> simp [h2]
  · simp [h1]
    by_cases h2 : e.isScanning <;> simp [h2]

/-! ### Claim C5: registry entry removal under id replacement

handleIncomingTransfer registers the connection under the provisional id
(networkManager.js 399), then reassigns the local `transferId` variable when
the metadata carries one (line 431); the deletion in the pipeline callback
(line 478) therefore uses the replaced id and the entry registered under the
provisional id survives termination. -/

/-- Claim C5 (code bug): a complete incoming transfer whose metadata carries
`transferId = "send_9"` finishes with the registry still holding the
provisional id `"recv_1"`; the claimed invariant — no registry entry under
either id after termination — fails. -/
theorem c5_registry_leak :
    (runRecv parseWithId (recvInit [] "recv_1" 0)
      (dataIns [(0, [123, 10, 97]), (5, [98, 99])] ++ [RIn.ended 1000])).finished
        = true ∧
    (runRecv parseWithId (recvInit [] "recv_1" 0)
      (dataIns [(0, [123, 10, 97]), (5, [98, 99])] ++ [RIn.ended 1000])).tid
        = "send_9" ∧
    (runRecv parseWithId (recvInit [] "recv_1" 0)
      (dataIns [(0, [123, 10, 97]), (5, [98, 99])] ++ [RIn.ended 1000])).reg
        = ["recv_1"] := by
  refine ⟨by decide, by decide, by decide⟩

/-! ### Claim C7: peers-cleared on discovery restart -/

/-- Claim C7 (counterexample): the claim says every discovery (re)start
publishes a single `peers-cleared` event.  In the trace
init → startDiscovery → frame from 10.0.0.7 → startDiscovery, the peer table
is empty again but the event log contains zero `peers-cleared` events: the
source never sends one. -/
theorem c7_counterexample :
    (startDiscovery (handleDiscoveryMessage (startDiscovery Engine.init) []
        "10.0.0.7")).peers = [] ∧
    ((startDiscovery (handleDiscoveryMessage (startDiscovery Engine.init) []
        "10.0.0.7")).events.filter (fun ev => ev = DEv.peersCleared)).length
      = 0 := by
  refine ⟨by decide, by decide⟩

/-- Claim C7 (amended): every discovery (re)start clears the peer table —
without publishing any event — so that a presence frame from a
still-reachable peer re-emits `peer-discovered` for that peer. -/
theorem c7_restart_reemits (e : Engine) (localIPs : List String) (ip : String)
    (h1 : ip ∉ localIPs) :
    (startDiscovery e).peers = [] ∧
    (startDiscovery e).events = e.events ∧
    (handleDiscoveryMessage (startDiscovery e) localIPs ip).events
      = (startDiscovery e).events ++ [DEv.peerDiscovered ip] := by
  have hpeers : (startDiscovery e).peers = [] := by
    simp only [startDiscovery, startTcpServer]
    by_cases h2 : e.tcpBound
    · simp [h2]
      by_cases h3 : e.isScanning <;> simp [h3]
    · simp [h2]
      by_cases h3 : e.isScanning <;> simp [h3]
  have hevents : (startDiscovery e).events = e.events := by
    simp only [startDiscovery, startTcpServer]
    by_cases h2 : e.tcpBound
    · simp [h2]
      by_cases h3 : e.isScanning <;> simp [h3]
    · simp [h2]
      by_cases h3 : e.isScanning <;> simp [h3]
  refine ⟨hpeers, hevents, ?_⟩
  simp [handleDiscoveryMessage, h1, hpeers]

/-- Claim C7 witness: the amended statement at a concrete restart. -/
theorem c7_restart_reemits_witness :
    (startDiscovery Engine.init).peers = [] ∧
    (startDiscovery Engine.init).events = Engine.init.events ∧
    (handleDiscoveryMessage (startDiscovery Engine.init) ["192.168.1.5"]
        "10.0.0.7").events
      = (startDiscovery Engine.init).events ++ [DEv.peerDiscovered "10.0.0.7"] :=
  c7_restart_reemits Engine.init ["192.168.1.5"] "10.0.0.7" (by decide)

/-! ### Claim C3: batch exclusivity -/

/-- Claim C3: at most one send batch is active at any instant.  (1) An
invocation of `transfer-files` while `batchTransferActive` holds fails
synchronously with the well-defined error and changes nothing — in
particular the transfer registry is untouched.  (2) The guard-and-set
prefix of the handler is synchronous in the event loop, so of two
interleaved invocations only the first passes the guard; the second hits
case (1).  (3) The `finally` block clears `batchTransferActive` on every
exit path of a started batch, so a subsequent batch can start. -/
theorem c3_batch_exclusive :
    (∀ (h : Host) (id : String) (files : List (Bool × Option String)),
        h.batchTransferActive = true →
        transferFilesHandler h id files =
          ({ success := false,
             error := some "A transfer is already in progress. Please wait." },
           h, [])) ∧
    (∀ (h : Host) (files : List (Bool × Option String)),
        h.batchTransferActive = false → files ≠ [] →
        tfStart h files.isEmpty =
          Except.ok { h with batchTransferActive := true }) ∧
    (∀ (h : Host) (id : String) (files : List (Bool × Option String)),
        h.batchTransferActive = false → files ≠ [] →
        (transferFilesHandler h id files).2.1.batchTransferActive = false) := by
  refine ⟨?_, ?_, ?_⟩
  · intro h id files hact
    simp [transferFilesHandler, tfStart, hact]
  · intro h files hact hne
    have hemp : files.isEmpty = false := by
      cases files with
      | nil => exact absurd rfl hne
      | cons a l => rfl
    simp [tfStart, hact, hemp]
  · intro h id files hact hne
    have hemp : files.isEmpty = false := by
      cases files with
      | nil => exact absurd rfl hne
      | cons a l => rfl
    simp only [transferFilesHandler, tfStart, hact, hemp]
    simp only [Bool.false_eq_true, if_false]
    cases (runBatchLoop { h with batchTransferActive := true }.reg id files).1 with
    | ok => rfl
    | err msg => rfl

/-- Claim C3 witness: the three parts at concrete states — a second call
against an active batch fails and changes nothing, a first call passes the
guard, and a completed batch leaves the flag cleared. -/
theorem c3_batch_exclusive_witness :
    transferFilesHandler { batchTransferActive := true, reg := ["a"] } "b2"
        [(true, none)] =
      ({ success := false,
         error := some "A transfer is already in progress. Please wait." },
       { batchTransferActive := true, reg := ["a"] }, []) ∧
    tfStart { batchTransferActive := false, reg := [] }
        ([(true, (none : Option String))].isEmpty) =
      Except.ok { batchTransferActive := true, reg := [] } ∧
    (transferFilesHandler { batchTransferActive := false, reg := [] } "b1"
        [(true, none)]).2.1.batchTransferActive = false := by
  refine ⟨?_, ?_, ?_⟩
  · exact c3_batch_exclusive.1 { batchTransferActive := true, reg := ["a"] }
      "b2" [(true, none)] rfl
  · exact c3_batch_exclusive.2.1 { batchTransferActive := false, reg := [] }
      [(true, none)] rfl (by decide)
  · exact c3_batch_exclusive.2.2 { batchTransferActive := false, reg := [] }
      "b1" [(true, none)] rfl (by decide)

/-! ### Claim C9: batch with a missing file -/

/-- Claim C9 (counterexample): the claim says a batch whose file list
contains a missing path fails rather than reporting success.  A batch over
the single missing file returns `{ success: true }`: the loop catches the
"File not found" rejection, and only messages containing ECONNREFUSED or
ETIMEDOUT abort the batch (check-env.js 341-347). -/
theorem c9_counterexample :
    transferFilesHandler { batchTransferActive := false, reg := [] } "b1"
        [(false, none)] =
      ({ success := true, error := none },
       { batchTransferActive := false, reg := [] },
       [Outcome.err "File not found"]) := by
  decide

/-- Claim C9 (amended): a send for a missing path fails immediately — the
sender rejects with "File not found" before registering anything — but the
batch skips the failed file and continues: when the remaining files send
without a connection-class error, the batch reports success, recording the
failed outcome for the missing file. -/
theorem c9_missing_file (reg : List String) (tid : String)
    (fileSize t0 : Nat) (chunks : List (Nat × Nat)) (perr : Option String)
    (h : Host) (id : String) (rest : List (Bool × Option String))
    (hact : h.batchTransferActive = false)
    (hrest : (runBatchLoop h.reg id rest).1 = Outcome.ok) :
    sendFileRun reg tid false fileSize t0 chunks perr =
      { result := Outcome.err "File not found", reg := reg, events := [] } ∧
    (transferFilesHandler h id ((false, none) :: rest)).1 =
      { success := true, error := none } ∧
    (transferFilesHandler h id ((false, none) :: rest)).2.2 =
      Outcome.err "File not found" :: (runBatchLoop h.reg id rest).2.2 := by
  have hsend : ∀ (r : List String),
      sendFileRun r id false 0 0 [] (none : Option String) =
        { result := Outcome.err "File not found", reg := r, events := [] } := by
    intro r
    rfl
  have hinc : (jsIncludes "File not found" "ECONNREFUSED"
      || jsIncludes "File not found" "ETIMEDOUT") = false := by decide
  refine ⟨rfl, ?_, ?_⟩
  · simp [transferFilesHandler, tfStart, hact, runBatchLoop, hsend, hinc, hrest]
  · simp [transferFilesHandler, tfStart, hact, runBatchLoop, hsend, hinc, hrest]

/-- Claim C9 witness: the amended statement for a batch of a missing file
followed by an existing file. -/
theorem c9_missing_file_witness :
    sendFileRun ["x"] "t7" false 9 0 [] none =
      { result := Outcome.err "File not found", reg := ["x"], events := [] } ∧
    (transferFilesHandler { batchTransferActive := false, reg := [] } "b1"
        ((false, none) :: [(true, none)])).1 =
      { success := true, error := none } ∧
    (transferFilesHandler { batchTransferActive := false, reg := [] } "b1"
        ((false, none) :: [(true, none)])).2.2 =
      Outcome.err "File not found" ::
        (runBatchLoop [] "b1" [(true, none)]).2.2 :=
  c9_missing_file ["x"] "t7" 9 0 [] none
    { batchTransferActive := false, reg := [] } "b1" [(true, none)]
    rfl (by decide)

/-! ### Claim C6: size mismatch on the receive side -/

/-- Claim C6 (counterexample): the claim says a stream that ends before the
declared size is a protocol error (connection destroyed, `transfer-error`).
Receiving 3 payload bytes against a declared size of 5 and then a clean end
produces a `transfer-complete` event and no `transfer-error`: the pipeline
callback checks only the error argument, never the byte count
(networkManager.js 475-490). -/
theorem c6_counterexample :
    (runRecv parseSize5 (recvInit [] "r1" 0)
        [RIn.data 0 [123, 10, 97, 98, 99], RIn.ended 600]).fileSize = 5 ∧
    (runRecv parseSize5 (recvInit [] "r1" 0)
        [RIn.data 0 [123, 10, 97, 98, 99], RIn.ended 600]).fileBytes.length
      = 3 ∧
    (runRecv parseSize5 (recvInit [] "r1" 0)
        [RIn.data 0 [123, 10, 97, 98, 99], RIn.ended 600]).events =
      [REv.progress "r1" "connecting" 0 0 0,
       REv.progress "r1" "receiving" 0 0 0,
       REv.complete "r1"] := by
  refine ⟨by decide, by decide, by decide⟩

/-- Claim C6 (amended): the receiver performs no size check.  Whenever the
stream ends cleanly while the pipeline is attached — even with fewer bytes
received than declared — the transfer finishes with `transfer-complete`,
and the registry entry is deleted; `transfer-error` is not emitted. -/
theorem c6_no_size_check (parse : List Nat → Option Meta) (st : RSt) (t : Nat)
    (h1 : st.receiving = true) (h2 : st.destroyed = false)
    (h3 : st.finished = false) (hsz : st.fileBytes.length ≠ st.fileSize) :
    (rstep parse st (RIn.ended t)).events = st.events ++ [REv.complete st.tid] ∧
    (rstep parse st (RIn.ended t)).finished = true ∧
    (rstep parse st (RIn.ended t)).reg = regDelete st.reg st.tid := by
  simp [rstep, h1, h2, h3]

/-- Claim C6 witness: the amended statement at the short-stream state of the
counterexample (3 of 5 declared bytes received). -/
theorem c6_no_size_check_witness :
    (rstep parseSize5
        (runRecv parseSize5 (recvInit [] "r1" 0) [RIn.data 0 [123, 10, 97, 98, 99]])
        (RIn.ended 600)).events =
      (runRecv parseSize5 (recvInit [] "r1" 0)
        [RIn.data 0 [123, 10, 97, 98, 99]]).events ++ [REv.complete
          (runRecv parseSize5 (recvInit [] "r1" 0)
            [RIn.data 0 [123, 10, 97, 98, 99]]).tid] ∧
    (rstep parseSize5
        (runRecv parseSize5 (recvInit [] "r1" 0) [RIn.data 0 [123, 10, 97, 98, 99]])
        (RIn.ended 600)).finished = true ∧
    (rstep parseSize5
        (runRecv parseSize5 (recvInit [] "r1" 0) [RIn.data 0 [123, 10, 97, 98, 99]])
        (RIn.ended 600)).reg =
      regDelete (runRecv parseSize5 (recvInit [] "r1" 0)
          [RIn.data 0 [123, 10, 97, 98, 99]]).reg
        (runRecv parseSize5 (recvInit [] "r1" 0)
          [RIn.data 0 [123, 10, 97, 98, 99]]).tid :=
  c6_no_size_check parseSize5
    (runRecv parseSize5 (recvInit [] "r1" 0) [RIn.data 0 [123, 10, 97, 98, 99]])
    600 (by decide) (by decide) (by decide) (by decide)

/-! ### Claim C10: the IPv4 address conversions are inverse bijections -/

/-- On octet inputs the JS shift-or combination computes the weighted sum:
no 32-bit overflow occurs because each summand stays below 2 ^ 32. -/
theorem ipToLong_octets (a b c d : Nat)
    (ha : a < 256) (hb : b < 256) (hc : c < 256) (hd : d < 256) :
    ipToLong a b c d = a * 16777216 + b * 65536 + c * 256 + d := by
  have p24 : (2 : Nat) ^ 24 = 16777216 := by norm_num
  have p16 : (2 : Nat) ^ 16 = 65536 := by norm_num
  have p8 : (2 : Nat) ^ 8 = 256 := by norm_num
  have s1 : jsShiftLeft32 a 24 = a * 16777216 := by
    simp only [jsShiftLeft32, toUint32, p24]
    omega
  have s2 : jsShiftLeft32 b 16 = b * 65536 := by
    simp only [jsShiftLeft32, toUint32, p16]
    omega
  have s3 : jsShiftLeft32 c 8 = c * 256 := by
    simp only [jsShiftLeft32, toUint32, p8]
    omega
  have h1 : a * 16777216 ||| b * 65536 = a * 16777216 + b * 65536 := by
    have h := Nat.mul_add_lt_is_or (i := 24) (b := b * 65536) (by omega) a
    rw [p24, Nat.mul_comm 16777216 a] at h
    exact h.symm
  have h2 : a * 16777216 + b * 65536 ||| c * 256
      = a * 16777216 + b * 65536 + c * 256 := by
    have h := Nat.mul_add_lt_is_or (i := 16) (b := c * 256) (by omega) (a * 256 + b)
    rw [p16] at h
    have e : 65536 * (a * 256 + b) = a * 16777216 + b * 65536 := by ring
    rw [e] at h
    exact h.symm
  have h3 : a * 16777216 + b * 65536 + c * 256 ||| d
      = a * 16777216 + b * 65536 + c * 256 + d := by
    have h := Nat.mul_add_lt_is_or (i := 8) (b := d) (by omega)
      (a * 65536 + b * 256 + c)
    rw [p8] at h
    have e : 256 * (a * 65536 + b * 256 + c)
        = a * 16777216 + b * 65536 + c * 256 := by ring
    rw [e] at h
    exact h.symm
  have m1 : toUint32 (a * 16777216) = a * 16777216 :=
    Nat.mod_eq_of_lt (by omega)
  have m2 : toUint32 (b * 65536) = b * 65536 := Nat.mod_eq_of_lt (by omega)
  have m3 : toUint32 (c * 256) = c * 256 := Nat.mod_eq_of_lt (by omega)
  have m4 : toUint32 d = d := Nat.mod_eq_of_lt (by omega)
  have m12 : toUint32 (a * 16777216 + b * 65536) = a * 16777216 + b * 65536 :=
    Nat.mod_eq_of_lt (by omega)
  have m123 : toUint32 (a * 16777216 + b * 65536 + c * 256)
      = a * 16777216 + b * 65536 + c * 256 := Nat.mod_eq_of_lt (by omega)
  have m1234 : toUint32 (a * 16777216 + b * 65536 + c * 256 + d)
      = a * 16777216 + b * 65536 + c * 256 + d := Nat.mod_eq_of_lt (by omega)
  simp only [ipToLong, jsOr32, s1, s2, s3, m1, m2, h1, m12, m3, h2, m123, m4,
    h3, m1234]

/-- The four octet extractions of longToIp, written with division and
remainder; the 255 mask is remainder modulo 256. -/
theorem longToIp_eq (n : Nat) :
    longToIp n = (n % 4294967296 / 16777216 % 256,
                  n % 4294967296 / 65536 % 256,
                  n % 4294967296 / 256 % 256,
                  n % 4294967296 % 256) := by
  have hand : ∀ x : Nat, x &&& 255 = x % 256 := by
    intro x
    have h := Nat.and_pow_two_sub_one_eq_mod x 8
    norm_num at h
    exact h
  have p24 : (2 : Nat) ^ 24 = 16777216 := by norm_num
  have p16 : (2 : Nat) ^ 16 = 65536 := by norm_num
  have p8 : (2 : Nat) ^ 8 = 256 := by norm_num
  have h255 : (255 : Nat) % 4294967296 = 255 := by norm_num
  simp only [longToIp, jsAnd32, jsShiftRightU32, toUint32, p24, p16, p8, h255,
    hand, Prod.mk.injEq]
  refine ⟨by omega, by omega, by omega, trivial⟩

/-- Claim C10: the IPv4 conversions used for broadcast targeting and the
subnet sweep are mutually inverse: for every 32-bit value n,
ipToLong (longToIp n) = n, and for every quadruple of octets in 0-255
(the parsed form of a canonical dotted-quad string),
longToIp (ipToLong a b c d) = (a, b, c, d). -/
theorem c10_ip_roundtrip :
    (∀ n : Nat, n < 4294967296 →
        ipToLong (longToIp n).1 (longToIp n).2.1 (longToIp n).2.2.1
          (longToIp n).2.2.2 = n) ∧
    (∀ a b c d : Nat, a < 256 → b < 256 → c < 256 → d < 256 →
        longToIp (ipToLong a b c d) = (a, b, c, d)) := by
  constructor
  · intro n hn
    rw [longToIp_eq]
    simp only
    rw [ipToLong_octets _ _ _ _ (by omega) (by omega) (by omega) (by omega)]
    omega
  · intro a b c d ha hb hc hd
    rw [ipToLong_octets a b c d ha hb hc hd, longToIp_eq]
    simp only [Prod.mk.injEq]
    refine ⟨by omega, by omega, by omega, by omega⟩

/-- Claim C10 witness: both directions at 192.168.1.1 = 3232235777. -/
theorem c10_ip_roundtrip_witness :
    ipToLong (longToIp 3232235777).1 (longToIp 3232235777).2.1
        (longToIp 3232235777).2.2.1 (longToIp 3232235777).2.2.2 = 3232235777 ∧
    longToIp (ipToLong 192 168 1 1) = (192, 168, 1, 1) :=
  ⟨c10_ip_roundtrip.1 3232235777 (by norm_num),
   c10_ip_roundtrip.2 192 168 1 1 (by norm_num) (by norm_num) (by norm_num)
     (by norm_num)⟩

/-! ### Claim C1: metadata/payload framing

Helper lemmas about the newline search, the three shapes of a data step,
and invariants for the two phases of handleIncomingTransfer: metadata
accumulation and the attached pipeline. -/

/-- A buffer without a newline byte has no newline index. -/
theorem findNl_eq_none {xs : List Nat} (h : (10 : Nat) ∉ xs) :
    findNl xs = none := by
  induction xs with
  | nil => rfl
  | cons a l ih =>
    have ha : a ≠ 10 := by
      intro e
      exact h (by simp [e])
    have hl : (10 : Nat) ∉ l := fun hm => h (List.mem_cons_of_mem a hm)
    simp [findNl, ha, ih hl]

/-- The first newline after a newline-free prefix sits at the prefix
length. -/
theorem findNl_append_nl (xs ys : List Nat) (h : (10 : Nat) ∉ xs) :
    findNl (xs ++ 10 :: ys) = some xs.length := by
  induction xs with
  | nil => simp [findNl]
  | cons a l ih =>
    have ha : a ≠ 10 := by
      intro e
      exact h (by simp [e])
    have hl : (10 : Nat) ∉ l := fun hm => h (List.mem_cons_of_mem a hm)
    simp [findNl, ha, ih hl]

/-- Data step while the pipeline is attached: the chunk goes to the file
through the progress transform. -/
theorem rstep_data_receiving (parse : List Nat → Option Meta) (st : RSt)
    (t : Nat) (c : List Nat) (h1 : st.receiving = true)
    (h2 : st.destroyed = false) (h3 : st.finished = false) :
    rstep parse st (RIn.data t c) =
      { st with
        fileBytes := st.fileBytes ++ c
        th := (throttleStep st.th t c.length).1
        events := st.events
          ++ emEvents st.tid st.fileSize (throttleStep st.th t c.length).2 } := by
  simp [rstep, h1, h2, h3]

/-- Data step before the newline is seen: the chunk is buffered. -/
theorem rstep_data_buffering (parse : List Nat → Option Meta) (st : RSt)
    (t : Nat) (c : List Nat) (h1 : st.receiving = false)
    (h2 : st.destroyed = false) (h3 : st.finished = false)
    (hnl : findNl (st.metaBuffer ++ c) = none)
    (hsz : ¬ 65536 < (st.metaBuffer ++ c).length) :
    rstep parse st (RIn.data t c) = { st with metaBuffer := st.metaBuffer ++ c } := by
  have hsz2 : st.metaBuffer.length + c.length ≤ 65536 := by
    simp [Nat.not_lt, List.length_append] at hsz
    omega
  simp [rstep, h1, h2, h3, hnl, hsz2]

/-- Data step that completes the metadata line: the id is adopted, exactly
the bytes after the newline become the first file bytes, and the pipeline
takes over. -/
theorem rstep_data_parse (parse : List Nat → Option Meta) (st : RSt)
    (t : Nat) (c : List Nat) (i : Nat) (m : Meta)
    (h1 : st.receiving = false) (h2 : st.destroyed = false)
    (h3 : st.finished = false)
    (hfind : findNl (st.metaBuffer ++ c) = some i)
    (hp2 : parse ((st.metaBuffer ++ c).take i) = some m) :
    ∃ th ev, rstep parse st (RIn.data t c) =
      { st with
        receiving := true
        metaBuffer := []
        fileBytes := (st.metaBuffer ++ c).drop (i + 1)
        fileSize := m.size
        tid := m.transferId.getD st.tid
        parses := st.parses + 1
        th := th
        events := ev } := by
  by_cases hrem : ((st.metaBuffer ++ c).drop (i + 1)).isEmpty
  · refine ⟨st.th,
      st.events ++ [REv.progress (m.transferId.getD st.tid) "receiving" 0 0 t], ?_⟩
    simp [rstep, h1, h2, h3, hfind, hp2, hrem]
  · refine ⟨(throttleStep st.th t ((st.metaBuffer ++ c).drop (i + 1)).length).1,
      st.events ++ [REv.progress (m.transferId.getD st.tid) "receiving" 0 0 t]
        ++ emEvents (m.transferId.getD st.tid) m.size
          (throttleStep st.th t ((st.metaBuffer ++ c).drop (i + 1)).length).2, ?_⟩
    simp [rstep, h1, h2, h3, hfind, hp2, hrem]

/-- Once the pipeline is attached, a run over data chunks appends exactly
their concatenation to the file bytes; the control fields, the id, the
declared size and the registry are untouched. -/
theorem runRecv_receiving (parse : List Nat → Option Meta)
    (chunks : List (Nat × List Nat)) :
    ∀ st : RSt, st.receiving = true → st.destroyed = false →
    st.finished = false →
    ∃ th ev, runRecv parse st (dataIns chunks) =
      { st with
        fileBytes := st.fileBytes ++ chunksJoin chunks
        th := th
        events := ev } := by
  induction chunks with
  | nil =>
    intro st h1 h2 h3
    exact ⟨st.th, st.events, by simp [runRecv, dataIns, chunksJoin]⟩
  | cons p rest ih =>
    intro st h1 h2 h3
    obtain ⟨t, c⟩ := p
    have hstep := rstep_data_receiving parse st t c h1 h2 h3
    have hrun : runRecv parse st (dataIns ((t, c) :: rest)) =
        runRecv parse (rstep parse st (RIn.data t c)) (dataIns rest) := rfl
    obtain ⟨th, ev, heq⟩ := ih (rstep parse st (RIn.data t c))
      (by rw [hstep]; exact h1) (by rw [hstep]; exact h2)
      (by rw [hstep]; exact h3)
    refine ⟨th, ev, ?_⟩
    rw [hrun, heq, hstep]
    simp [chunksJoin, List.append_assoc]

/-- During metadata accumulation — the buffer so far a newline-free prefix
of the header — delivering the rest of the stream parses the header exactly
once and hands every byte after the newline, and only those, to the file
pipeline. -/
theorem runRecv_await (parse : List Nat → Option Meta)
    (header payload : List Nat) (m : Meta)
    (h10 : (10 : Nat) ∉ header) (hlen : header.length ≤ 65536)
    (hp : parse header = some m) (chunks : List (Nat × List Nat)) :
    ∀ st : RSt, st.receiving = false → st.destroyed = false →
    st.finished = false →
    (∃ k, k ≤ header.length ∧ st.metaBuffer = header.take k) →
    st.metaBuffer ++ chunksJoin chunks = header ++ 10 :: payload →
    ∃ th ev, runRecv parse st (dataIns chunks) =
      { st with
        receiving := true
        metaBuffer := []
        fileBytes := payload
        fileSize := m.size
        tid := m.transferId.getD st.tid
        parses := st.parses + 1
        th := th
        events := ev } := by
  induction chunks with
  | nil =>
    intro st h1 h2 h3 hpre hj
    exfalso
    obtain ⟨k, hk, hmb⟩ := hpre
    have hjl := congrArg List.length hj
    rw [hmb] at hjl
    simp only [chunksJoin, List.map_nil, List.flatten_nil, List.append_nil,
      List.length_take, List.length_append, List.length_cons] at hjl
    omega
  | cons p rest ih =>
    intro st h1 h2 h3 hpre hj
    obtain ⟨k, hk, hmb⟩ := hpre
    obtain ⟨t, c⟩ := p
    have hjoin : chunksJoin ((t, c) :: rest) = c ++ chunksJoin rest := by
      simp [chunksJoin]
    have hj2 : (st.metaBuffer ++ c) ++ chunksJoin rest = header ++ 10 :: payload := by
      rw [hjoin] at hj
      rw [List.append_assoc]
      exact hj
    have hrun : runRecv parse st (dataIns ((t, c) :: rest)) =
        runRecv parse (rstep parse st (RIn.data t c)) (dataIns rest) := rfl
    by_cases hcase : (st.metaBuffer ++ c).length ≤ header.length
    · have hbufpre : st.metaBuffer ++ c = header.take (st.metaBuffer ++ c).length := by
        calc st.metaBuffer ++ c
            = ((st.metaBuffer ++ c) ++ chunksJoin rest).take (st.metaBuffer ++ c).length :=
              (List.take_left _ _).symm
          _ = (header ++ 10 :: payload).take (st.metaBuffer ++ c).length := by rw [hj2]
          _ = header.take (st.metaBuffer ++ c).length := by
              rw [List.take_append_eq_append_take, Nat.sub_eq_zero_of_le hcase]
              simp
      have hnomem : (10 : Nat) ∉ st.metaBuffer ++ c := by
        rw [hbufpre]
        intro hm
        exact h10 (List.take_subset _ _ hm)
      have hnl : findNl (st.metaBuffer ++ c) = none := findNl_eq_none hnomem
      have hsz : ¬ 65536 < (st.metaBuffer ++ c).length := by omega
      have hstep := rstep_data_buffering parse st t c h1 h2 h3 hnl hsz
      obtain ⟨th, ev, heq⟩ := ih (rstep parse st (RIn.data t c))
        (by rw [hstep]; exact h1) (by rw [hstep]; exact h2)
        (by rw [hstep]; exact h3)
        ⟨(st.metaBuffer ++ c).length, hcase, by rw [hstep]; exact hbufpre⟩
        (by rw [hstep]; exact hj2)
      refine ⟨th, ev, ?_⟩
      rw [hrun, heq, hstep]
    · push_neg at hcase
      set q := payload.take ((st.metaBuffer ++ c).length - header.length - 1)
        with hqdef
      have hdecomp : st.metaBuffer ++ c = header ++ 10 :: q := by
        calc st.metaBuffer ++ c
            = ((st.metaBuffer ++ c) ++ chunksJoin rest).take (st.metaBuffer ++ c).length :=
              (List.take_left _ _).symm
          _ = (header ++ 10 :: payload).take (st.metaBuffer ++ c).length := by rw [hj2]
          _ = header ++ (10 :: payload).take ((st.metaBuffer ++ c).length - header.length) := by
              rw [List.take_append_eq_append_take,
                List.take_of_length_le (le_of_lt hcase)]
          _ = header ++ 10 :: q := by
              have e2 : (st.metaBuffer ++ c).length - header.length
                  = ((st.metaBuffer ++ c).length - header.length - 1) + 1 := by omega
              rw [e2, List.take_succ_cons, hqdef]
      have hq : q ++ chunksJoin rest = payload := by
        have h' := hj2
        rw [hdecomp, List.append_assoc] at h'
        have h'' := List.append_cancel_left h'
        simpa using h''
      have hfind : findNl (st.metaBuffer ++ c) = some header.length := by
        rw [hdecomp]
        exact findNl_append_nl header _ h10
      have hparse2 : parse ((st.metaBuffer ++ c).take header.length) = some m := by
        have htake : (st.metaBuffer ++ c).take header.length = header := by
          rw [hdecomp]
          exact List.take_left header _
        rw [htake]
        exact hp
      have hdrop : (st.metaBuffer ++ c).drop (header.length + 1) = q := by
        rw [hdecomp]
        have e3 : header ++ 10 :: q = (header ++ [10]) ++ q := by simp
        rw [e3]
        have e4 : header.length + 1 = (header ++ [10]).length := by simp
        rw [e4]
        exact List.drop_left _ _
      obtain ⟨th1, ev1, hstep⟩ :=
        rstep_data_parse parse st t c header.length m h1 h2 h3 hfind hparse2
      obtain ⟨th2, ev2, heq⟩ := runRecv_receiving parse rest
        (rstep parse st (RIn.data t c))
        (by rw [hstep]) (by rw [hstep]; exact h2) (by rw [hstep]; exact h3)
      refine ⟨th2, ev2, ?_⟩
      rw [hrun, heq, hstep]
      simp [hdrop, hq]

/-- Claim C1: when a sender writes one newline-terminated metadata line
(newline-free, within the 64 KiB bound, and parseable) followed by payload
bytes, then however the stream is chunked, the receiver hands exactly the
payload bytes to the destination file: bytes buffered past the newline are
re-inserted ahead of the stream, no payload byte is lost or re-read as
metadata (even when the payload contains newlines or resembles a second
header), the connection stays healthy, and metadata is parsed exactly once —
no second transfer is spawned on the connection. -/
theorem c1_framing (parse : List Nat → Option Meta) (m : Meta)
    (header payload : List Nat) (chunks : List (Nat × List Nat))
    (reg0 : List String) (provId : String) (t0 : Nat)
    (h10 : (10 : Nat) ∉ header) (hlen : header.length ≤ 65536)
    (hp : parse header = some m)
    (hj : chunksJoin chunks = header ++ 10 :: payload) :
    (runRecv parse (recvInit reg0 provId t0) (dataIns chunks)).fileBytes = payload ∧
    (runRecv parse (recvInit reg0 provId t0) (dataIns chunks)).receiving = true ∧
    (runRecv parse (recvInit reg0 provId t0) (dataIns chunks)).destroyed = false ∧
    (runRecv parse (recvInit reg0 provId t0) (dataIns chunks)).finished = false ∧
    (runRecv parse (recvInit reg0 provId t0) (dataIns chunks)).parses = 1 := by
  obtain ⟨th, ev, heq⟩ := runRecv_await parse header payload m h10 hlen hp chunks
    (recvInit reg0 provId t0) rfl rfl rfl ⟨0, by omega, rfl⟩ (by simpa using hj)
  rw [heq]
  simp [recvInit]

/-- Claim C1 witness: a header byte, then a payload split across chunks so
that payload bytes arrive inside the metadata chunk. -/
theorem c1_framing_witness :
    (runRecv parseWithId (recvInit [] "recv_1" 0)
      (dataIns [(0, [123, 10, 97]), (5, [98, 99])])).fileBytes = [97, 98, 99] ∧
    (runRecv parseWithId (recvInit [] "recv_1" 0)
      (dataIns [(0, [123, 10, 97]), (5, [98, 99])])).receiving = true ∧
    (runRecv parseWithId (recvInit [] "recv_1" 0)
      (dataIns [(0, [123, 10, 97]), (5, [98, 99])])).destroyed = false ∧
    (runRecv parseWithId (recvInit [] "recv_1" 0)
      (dataIns [(0, [123, 10, 97]), (5, [98, 99])])).finished = false ∧
    (runRecv parseWithId (recvInit [] "recv_1" 0)
      (dataIns [(0, [123, 10, 97]), (5, [98, 99])])).parses = 1 :=
  c1_framing parseWithId { transferId := some "send_9", name := "f", size := 3 }
    [123] [97, 98, 99] [(0, [123, 10, 97]), (5, [98, 99])] [] "recv_1" 0
    (by decide) (by decide) (by decide) (by decide)

/-! ### Claim C8: progress event cadence -/

/-- Emissions of the shared progress throttle are at least 500 ms apart,
and no emission happens within 500 ms of the initial `lastUpdate`. -/
theorem throttleRun_spacing (inputs : List (Nat × Nat)) :
    ∀ th : Throttle,
      List.Chain' (fun a b : Nat × Nat => a.1 + 500 ≤ b.1)
        (throttleRun th inputs).2 ∧
      ∀ e ∈ (throttleRun th inputs).2, th.lastUpdate + 500 ≤ e.1 := by
  induction inputs with
  | nil =>
    intro th
    constructor
    · simp [throttleRun]
    · intro e he
      simp [throttleRun] at he
  | cons p rest ih =>
    intro th
    obtain ⟨t, len⟩ := p
    by_cases hc : 500 ≤ t - th.lastUpdate
    · have hstep : throttleStep th t len =
          ({ lastUpdate := t, lastBytes := th.transferred + len,
             transferred := th.transferred + len },
           some (t, th.transferred + len)) := by
        simp [throttleStep, hc]
      have hlu : th.lastUpdate + 500 ≤ t := by omega
      obtain ⟨ihch, ihlb⟩ :=
        ih { lastUpdate := t, lastBytes := th.transferred + len, transferred := th.transferred + len }
      have hrun : (throttleRun th ((t, len) :: rest)).2
          = (t, th.transferred + len) ::
            (throttleRun { lastUpdate := t, lastBytes := th.transferred + len, transferred := th.transferred + len } rest).2 := by
        simp [throttleRun, hstep]
      constructor
      · rw [hrun, List.chain'_cons']
        constructor
        · intro y hy
          have hb := ihlb y (List.mem_of_mem_head? hy)
          simp only at hb
          exact hb
        · exact ihch
      · intro e he
        rw [hrun] at he
        rcases List.mem_cons.mp he with he1 | he2
        · rw [he1]
          exact hlu
        · have hb := ihlb e he2
          simp only at hb
          omega
    · have hstep : throttleStep th t len =
          ({ th with transferred := th.transferred + len }, none) := by
        simp [throttleStep, hc]
      obtain ⟨ihch, ihlb⟩ := ih { th with transferred := th.transferred + len }
      have hrun : (throttleRun th ((t, len) :: rest)).2
          = (throttleRun { th with transferred := th.transferred + len } rest).2 := by
        simp [throttleRun, hstep]
      constructor
      · rw [hrun]
        exact ihch
      · intro e he
        rw [hrun] at he
        exact ihlb e he

/-- Claim C8 (counterexample): the claim requires a 0% progress event on
the sending side as well.  A 13-byte file sent in a single chunk 10 ms
after start emits no transfer-progress event at all — only
transfer-complete: the sender has no unconditional 0% event; its only
progress events come from the 500 ms throttle. -/
theorem c8_counterexample :
    (sendFileRun [] "t1" true 13 0 [(10, 13)] none).events
      = [SEv.complete "t1"] := by
  decide

/-- Claim C8 (amended): successive throttled transfer-progress events of a
transfer are at least 500 ms apart — the shared throttle kernel spaces its
emissions — on both sides; the sender's events are exactly the throttled
progress events followed by one transfer-complete on clean completion
(no unconditional 0% event); the receiver emits one receiving event with
progress 0 and bytes 0 immediately after metadata parse, and one
transfer-complete on clean EOF. -/
theorem c8_progress_cadence :
    (∀ (th : Throttle) (inputs : List (Nat × Nat)),
        List.Chain' (fun a b : Nat × Nat => a.1 + 500 ≤ b.1)
          (throttleRun th inputs).2) ∧
    (∀ (reg : List String) (tid : String) (fileSize t0 : Nat)
        (chunks : List (Nat × Nat)),
        (sendFileRun reg tid true fileSize t0 chunks none).events =
          ((throttleRun { lastUpdate := t0, lastBytes := 0, transferred := 0 }
              chunks).2.map
            (fun e => SEv.progress tid (progressPct e.2 fileSize) e.2 e.1))
            ++ [SEv.complete tid]) ∧
    (∀ (parse : List Nat → Option Meta) (st : RSt) (t : Nat) (c : List Nat)
        (i : Nat) (m2 : Meta),
        st.receiving = false → st.destroyed = false → st.finished = false →
        findNl (st.metaBuffer ++ c) = some i →
        parse ((st.metaBuffer ++ c).take i) = some m2 →
        ∃ rest, (rstep parse st (RIn.data t c)).events =
          st.events
            ++ REv.progress (m2.transferId.getD st.tid) "receiving" 0 0 t
              :: rest) ∧
    (∀ (parse : List Nat → Option Meta) (st : RSt) (t : Nat),
        st.receiving = true → st.destroyed = false → st.finished = false →
        (rstep parse st (RIn.ended t)).events
          = st.events ++ [REv.complete st.tid]) := by
  refine ⟨?_, ?_, ?_, ?_⟩
  · intro th inputs
    exact (throttleRun_spacing inputs th).1
  · intro reg tid fileSize t0 chunks
    simp [sendFileRun]
  · intro parse st t c i m2 h1 h2 h3 hfind hp2
    by_cases hrem : ((st.metaBuffer ++ c).drop (i + 1)).isEmpty
    · refine ⟨[], ?_⟩
      simp [rstep, h1, h2, h3, hfind, hp2, hrem]
    · refine ⟨emEvents (m2.transferId.getD st.tid) m2.size
        (throttleStep st.th t ((st.metaBuffer ++ c).drop (i + 1)).length).2, ?_⟩
      simp [rstep, h1, h2, h3, hfind, hp2, hrem]
  · intro parse st t h1 h2 h3
    simp [rstep, h1, h2, h3]

/-- Claim C8 witness: the amended statement at concrete runs — a throttle
trace with emissions 700 ms apart, a sender run, a metadata parse step and
a clean EOF step. -/
theorem c8_progress_cadence_witness :
    List.Chain' (fun a b : Nat × Nat => a.1 + 500 ≤ b.1)
      (throttleRun { lastUpdate := 0, lastBytes := 0, transferred := 0 }
        [(600, 5), (700, 3), (1300, 4)]).2 ∧
    (sendFileRun [] "t2" true 12 0 [(600, 5)] none).events =
      ((throttleRun { lastUpdate := 0, lastBytes := 0, transferred := 0 }
          [(600, 5)]).2.map
        (fun e => SEv.progress "t2" (progressPct e.2 12) e.2 e.1))
        ++ [SEv.complete "t2"] ∧
    (∃ rest, (rstep parseWithId (recvInit [] "recv_1" 0)
        (RIn.data 0 [123, 10, 97])).events =
      (recvInit [] "recv_1" 0).events
        ++ REv.progress ((some "send_9").getD (recvInit [] "recv_1" 0).tid)
            "receiving" 0 0 0 :: rest) ∧
    (rstep parseWithId
        (runRecv parseWithId (recvInit [] "recv_1" 0) [RIn.data 0 [123, 10, 97]])
        (RIn.ended 600)).events
      = (runRecv parseWithId (recvInit [] "recv_1" 0)
          [RIn.data 0 [123, 10, 97]]).events
        ++ [REv.complete (runRecv parseWithId (recvInit [] "recv_1" 0)
            [RIn.data 0 [123, 10, 97]]).tid] := by
  refine ⟨c8_progress_cadence.1
      { lastUpdate := 0, lastBytes := 0, transferred := 0 }
      [(600, 5), (700, 3), (1300, 4)],
    c8_progress_cadence.2.1 [] "t2" 12 0 [(600, 5)],
    c8_progress_cadence.2.2.1 parseWithId (recvInit [] "recv_1" 0) 0
      [123, 10, 97] 1 { transferId := some "send_9", name := "f", size := 3 }
      rfl rfl rfl (by decide) (by decide),
    c8_progress_cadence.2.2.2 parseWithId
      (runRecv parseWithId (recvInit [] "recv_1" 0) [RIn.data 0 [123, 10, 97]])
      600 (by decide) (by decide) (by decide)⟩

end SafeShare
